import Mathlib

/-!
Shallow embedding of the delivery engine of `django_mailer`
(`src/django_mailer/engine.py`, `src/django_mailer/models.py`,
`src/django_mailer/settings.py`) and proofs of the specification claims.

The persistent store (Django ORM tables `Message`, `QueuedMessage`,
`Blacklist`, `Log`) is modelled as explicit lists inside a `DB` record;
machine effects of the engine functions are modelled by explicit state
passing, and the observable transport / connection actions are recorded
in an event trace.
-/

namespace DjangoMailer

/-- A row of the `Message` table (`models.py`, class `Message`). -/
structure Message where
  id : Nat
  to_address : String
  from_address : String
  subject : String
  message : String
  html_message : String
  date_created : Nat
deriving DecidableEq

/-- A row of the `QueuedMessage` table (`models.py`, class `QueuedMessage`):
one-to-one `message` foreign key, `priority`, nullable `deferred` timestamp,
`retries`, `date_queued`. -/
structure QueuedMessage where
  id : Nat
  messageId : Nat
  priority : Nat
  deferred : Option Nat
  retries : Nat
  date_queued : Nat
deriving DecidableEq

/-- The three result codes of `django_mailer.constants`
(`RESULT_SENT`, `RESULT_SKIPPED`, `RESULT_FAILED`), modelled as an
inductive type since only their distinctness matters. -/
inductive Result where
  | sent
  | skipped
  | failed
deriving DecidableEq

/-- A row of the `Log` table (`models.py`, class `Log`). -/
structure Log where
  messageId : Nat
  result : Result
  log_message : String
deriving DecidableEq

/-- Modelled from the spec: `constants.py` is not under `src/`; §3 of the spec
fixes "priority ascending (high first)", so the high priority constant is
numerically smallest. -/
def PRIORITY_HIGH : Nat := 1

/-- Modelled from the spec: `constants.py` is not under `src/`. -/
def PRIORITY_NORMAL : Nat := 3

/-- Modelled from the spec: `constants.py` is not under `src/`. -/
def PRIORITY_LOW : Nat := 5

/-- The persistent state: the four tables plus a clock used for
`datetime.datetime.now()` when a message is deferred. -/
structure DB where
  messages : List Message
  queued : List QueuedMessage
  blacklist : List String
  logs : List Log
  now : Nat
deriving DecidableEq

/-- Outcome of one transport send attempt
(`message.email_message(connection=connection).send()`): success, or an
exception whose class is abstracted to a numeric kind. -/
inductive SendOutcome where
  | ok
  | error (kind : Nat)
deriving DecidableEq

/-- Observable connection / transport events of a per-message call. -/
inductive Ev where
  | opened
  | closed
  | sendAttempt (messageId : Nat)
deriving DecidableEq

/-- `message.queuedmessage.delete()` (engine.py line 212). -/
def deleteQueuedByMessage (db : DB) (mid : Nat) : DB :=
  { db with queued := db.queued.filter (fun q => q.messageId ≠ mid) }

/-- `queued_message.delete()` (engine.py line 178), deletion by primary key. -/
def deleteQueuedByPk (db : DB) (pk : Nat) : DB :=
  { db with queued := db.queued.filter (fun q => q.id ≠ pk) }

/-- `QueuedMessage.defer` (models.py lines 77-79): set `deferred` to the
current time and save; no other field is touched. -/
def deferQueuedByMessage (db : DB) (mid : Nat) : DB :=
  { db with queued := db.queued.map (fun q =>
      if q.messageId = mid then { q with deferred := some db.now } else q) }

/-- `models.Log.objects.create(message=..., result=..., log_message=...)`
(engine.py lines 223-224); the `Log` table is append-only. -/
def addLog (db : DB) (mid : Nat) (r : Result) (txt : String) : DB :=
  { db with logs := db.logs ++ [⟨mid, r, txt⟩] }

/-- `unicode(err)` (engine.py line 220), the free-text detail of a failure. -/
def errorText (kind : Nat) : String :=
  toString kind

/-- `engine.send_message` (engine.py lines 188-228).  `deferOnErrors` is
`settings.DEFER_ON_ERRORS`, the configured set of defer-worthy error kinds;
`transport` is the opaque send capability.  On success the queued row is
deleted and a `Sent` log entry created; on failure the row is deferred only
when the error kind is configured defer-worthy, and a `Failed` log entry is
created either way. -/
def send_message (deferOnErrors : List Nat) (transport : Message → SendOutcome)
    (db : DB) (m : Message) : Result × DB × List Ev :=
  match transport m with
  | .ok =>
      let db1 := deleteQueuedByMessage db m.id
      let db2 := addLog db1 m.id .sent "Sent"
      (.sent, db2, [.sendAttempt m.id])
  | .error k =>
      let db1 := if deferOnErrors.contains k then deferQueuedByMessage db m.id else db
      let db2 := addLog db1 m.id .failed (errorText k)
      (.failed, db2, [.sendAttempt m.id])

/-- `engine.send_queued_message` (engine.py lines 138-185).  `argConnection`
records whether a connection argument was supplied; when it was not, the
function opens a fresh connection first and closes it before returning.
`blacklist` is the optional snapshot argument; when absent the `Blacklist`
table is queried live.  If the recipient is blacklisted the queued row is
deleted and `skipped` returned without any send attempt; otherwise the send
is delegated to `send_message`.  Returns `none` when the `message` foreign
key is dangling (the ORM would raise). -/
def send_queued_message (deferOnErrors : List Nat)
    (transport : Message → SendOutcome) (db : DB) (qm : QueuedMessage)
    (argConnection : Bool) (blacklist : Option (List String)) :
    Option (Result × DB × List Ev) :=
  match db.messages.find? (fun m => m.id == qm.messageId) with
  | none => none
  | some m =>
    let openEvs : List Ev := if argConnection then [] else [.opened]
    let blacklisted : Bool :=
      match blacklist with
      | none => db.blacklist.contains m.to_address
      | some bl => bl.contains m.to_address
    let closeEvs : List Ev := if argConnection then [] else [.closed]
    if blacklisted then
      let db1 := deleteQueuedByPk db qm.id
      some (.skipped, db1, openEvs ++ closeEvs)
    else
      let r := send_message deferOnErrors transport db m
      some (r.1, r.2.1, openEvs ++ r.2.2 ++ closeEvs)

/-- The ordering of `QueuedMessage.Meta` (models.py line 75):
`ordering = ('priority', 'date_queued')`, ascending in both keys. -/
def queueOrder (a b : QueuedMessage) : Prop :=
  a.priority < b.priority ∨ (a.priority = b.priority ∧ a.date_queued ≤ b.date_queued)

instance : DecidableRel queueOrder := fun a b => by
  unfold queueOrder; infer_instance

instance : IsTotal QueuedMessage queueOrder where
  total a b := by
    unfold queueOrder
    rcases Nat.lt_trichotomy a.priority b.priority with h | h | h
    · exact Or.inl (Or.inl h)
    · rcases Nat.le_total a.date_queued b.date_queued with h' | h'
      · exact Or.inl (Or.inr ⟨h, h'⟩)
      · exact Or.inr (Or.inr ⟨h.symm, h'⟩)
    · exact Or.inr (Or.inl h)

instance : IsTrans QueuedMessage queueOrder where
  trans a b c hab hbc := by
    unfold queueOrder at *
    rcases hab with h1 | ⟨h1, h1'⟩
    · rcases hbc with h2 | ⟨h2, _⟩
      · exact Or.inl (h1.trans h2)
      · exact Or.inl (h2 ▸ h1)
    · rcases hbc with h2 | ⟨h2, h2'⟩
      · exact Or.inl (h1 ▸ h2)
      · exact Or.inr ⟨h1.trans h2, h1'.trans h2'⟩

/-- Modelled from the spec: `managers.py` (`QueueManager.non_deferred`) is not
under `src/`; per §3/§4.2 of the spec the Queue Store serves the entries whose
deferred-at timestamp is null. -/
def nonDeferred (db : DB) : List QueuedMessage :=
  db.queued.filter (fun q => q.deferred = none)

/-- The rows the `get_block` queryset ranges over before slicing:
non-deferred entries, excluding the already-handled primary keys
(`.exclude(pk__in=exclude_messages)`, engine.py lines 38-39). -/
def eligibleRows (db : DB) (exclude : List Nat) : List QueuedMessage :=
  (nonDeferred db).filter (fun q => ¬ exclude.contains q.id)

/-- `get_block` (engine.py lines 37-42): the eligible rows in the model
ordering of `QueuedMessage.Meta`, truncated to `block_size` rows when
`block_size` is non-zero (`if block_size: queue = queue[:block_size]`). -/
def get_block (db : DB) (exclude : List Nat) (blockSize : Nat) :
    List QueuedMessage :=
  let queue := (eligibleRows db exclude).insertionSort queueOrder
  if blockSize ≠ 0 then queue.take blockSize else queue

/-- `_message_queue` (engine.py lines 28-47) fused with its consumer: fetch a
block, yield each row to the consumer (which updates the store), and when the
block is exhausted fetch the next block fresh; stop when a freshly fetched
block is empty.  The result records the final store and the trace of yielded
primary keys; `none` means the fuel ran out (the documented non-termination
risk when the consumer fails to delete or defer a yielded entry). -/
def message_queue_run (consume : DB → QueuedMessage → DB) (blockSize : Nat)
    (exclude : List Nat) : Nat → DB → Option (DB × List Nat)
  | 0, _ => none
  | fuel + 1, db =>
    if (get_block db exclude blockSize).isEmpty then some (db, [])
    else
      match message_queue_run consume blockSize exclude fuel
          ((get_block db exclude blockSize).foldl consume db) with
      | none => none
      | some (db', trace) =>
          some (db', (get_block db exclude blockSize).map (·.id) ++ trace)

/-- Outcome of `lock.acquire(settings.LOCK_WAIT_TIMEOUT or 0)`
(engine.py lines 62-76): acquired, or one of the two caught exceptions. -/
inductive LockResult where
  | acquired
  | alreadyLocked
  | lockTimeout
deriving DecidableEq

/-- The mutable state of one drain pass inside `send_all` (engine.py lines
79-103): the store, the `exclude_messages` list, the three counters, the
trace of transport send attempts, and an optional countdown modelling an
exception injected while sending (`none` = no exception; `some 0` = raise
before the next per-message call). -/
structure PassState where
  db : DB
  exclude : List Nat
  sent : Nat
  deferredCount : Nat
  skipped : Nat
  attempts : List Nat
  budget : Option Nat
deriving DecidableEq

/-- The send attempts recorded in a per-message event trace. -/
def attemptsOf (evs : List Ev) : List Nat :=
  evs.filterMap (fun e => match e with
    | .sendAttempt mid => some mid
    | _ => none)

/-- One iteration of the `for message in _message_queue(...)` body
(engine.py lines 93-103): call `send_queued_message` with the shared
connection and blacklist snapshot, then update the counters, appending the
primary key to `exclude_messages` when the result is `RESULT_FAILED`.
`Except.error` carries the store at the point an exception propagates
(either the injected one or the ORM raising on a dangling foreign key). -/
def processEntry (deferOnErrors : List Nat) (transport : Message → SendOutcome)
    (blSnapshot : List String) (st : PassState) (qm : QueuedMessage) :
    Except DB PassState :=
  match st.budget with
  | some 0 => .error st.db
  | b =>
    match send_queued_message deferOnErrors transport st.db qm true
        (some blSnapshot) with
    | none => .error st.db
    | some (r, db, evs) =>
      let st' := { st with
        db := db
        budget := b.map (fun n => n - 1)
        attempts := st.attempts ++ attemptsOf evs }
      match r with
      | .sent => .ok { st' with sent := st'.sent + 1 }
      | .failed => .ok { st' with
          deferredCount := st'.deferredCount + 1
          exclude := st'.exclude ++ [qm.id] }
      | .skipped => .ok { st' with skipped := st'.skipped + 1 }

/-- Process the rows of one fetched block in order, stopping at the first
propagating exception. -/
def processList (deferOnErrors : List Nat) (transport : Message → SendOutcome)
    (blSnapshot : List String) : List QueuedMessage → PassState →
    Except DB PassState
  | [], st => .ok st
  | qm :: rest, st =>
    match processEntry deferOnErrors transport blSnapshot st qm with
    | .error db => .error db
    | .ok st' => processList deferOnErrors transport blSnapshot rest st'

/-- The drain loop of `send_all`: the generator `_message_queue` interleaved
with the loop body, re-fetching a fresh block (under the current
`exclude_messages`) once the previous block is exhausted, until a freshly
fetched block is empty.  `none` models non-termination (fuel ran out). -/
def drainLoop (deferOnErrors : List Nat) (transport : Message → SendOutcome)
    (blSnapshot : List String) (blockSize : Nat) :
    Nat → PassState → Option (Except DB PassState)
  | 0, _ => none
  | fuel + 1, st =>
    let block := get_block st.db st.exclude blockSize
    if block.isEmpty then some (.ok st)
    else
      match processList deferOnErrors transport blSnapshot block st with
      | .error db => some (.error db)
      | .ok st' => drainLoop deferOnErrors transport blSnapshot blockSize fuel st'

/-- How a `send_all` call ended: early return on lock failure, normal
completion, an exception propagated out (connection-open failure or an
exception raised while sending), or divergence (the drain loop never
reached an exit path). -/
inductive SAOut where
  | earlyReturn
  | completed
  | raised
  | diverged
deriving DecidableEq

/-- Observable result of `send_all`: final store, how the call ended, the
three counters of the summary line, the trace of transport send attempts,
and whether the lock was acquired / released. -/
structure SendAllResult where
  db : DB
  out : SAOut
  sent : Nat
  deferredCount : Nat
  skipped : Nat
  attempts : List Nat
  lockAcquired : Bool
  lockReleased : Bool
deriving DecidableEq

/-- `engine.send_all` (engine.py lines 50-116).  `lock` is the outcome of the
acquisition attempt; on `AlreadyLocked` / `LockTimeout` the function returns
at once, before any store access.  After acquisition the body runs inside
`try ... finally lock.release()`: the blacklist snapshot is taken, the
connection opened (`connOpenFails` models `connection.open()` raising), and
the queue drained; any exception still releases the lock, while divergence
of the drain loop never reaches the `finally` block. -/
def send_all (deferOnErrors : List Nat) (transport : Message → SendOutcome)
    (lock : LockResult) (connOpenFails : Bool) (raiseBudget : Option Nat)
    (blockSize : Nat) (fuel : Nat) (db : DB) : SendAllResult :=
  match lock with
  | .alreadyLocked => ⟨db, .earlyReturn, 0, 0, 0, [], false, false⟩
  | .lockTimeout => ⟨db, .earlyReturn, 0, 0, 0, [], false, false⟩
  | .acquired =>
    let blSnapshot := db.blacklist
    if connOpenFails then
      ⟨db, .raised, 0, 0, 0, [], true, true⟩
    else
      let st0 : PassState := ⟨db, [], 0, 0, 0, [], raiseBudget⟩
      match drainLoop deferOnErrors transport blSnapshot blockSize fuel st0 with
      | none => ⟨db, .diverged, 0, 0, 0, [], true, false⟩
      | some (.error db') => ⟨db', .raised, 0, 0, 0, [], true, true⟩
      | some (.ok st) =>
          ⟨st.db, .completed, st.sent, st.deferredCount, st.skipped,
           st.attempts, true, true⟩

/-- An action of the scheduler loop: one sleep of the inner
`while not QueuedMessage.objects.all()` loop, or one `send_all()` call. -/
inductive LoopAct where
  | slept
  | drained
deriving DecidableEq

/-- `engine.send_loop` (engine.py lines 119-135), unrolled for `fuel`
actions: if the `QueuedMessage` table is empty (deferred rows included in
the count) sleep, otherwise call `send_all`.  An exception propagating out
of `send_all`, or its divergence, aborts the loop (third component `true`).
-/
def send_loop (deferOnErrors : List Nat) (transport : Message → SendOutcome)
    (lock : LockResult) (connOpenFails : Bool) (raiseBudget : Option Nat)
    (blockSize : Nat) (drainFuel : Nat) :
    Nat → DB → List LoopAct × DB × Bool
  | 0, db => ([], db, false)
  | fuel + 1, db =>
    if db.queued.isEmpty then
      let r := send_loop deferOnErrors transport lock connOpenFails raiseBudget
          blockSize drainFuel fuel db
      (.slept :: r.1, r.2)
    else
      let sa := send_all deferOnErrors transport lock connOpenFails raiseBudget
          blockSize drainFuel db
      if sa.out = .raised ∨ sa.out = .diverged then
        ([.drained], sa.db, true)
      else
        let r := send_loop deferOnErrors transport lock connOpenFails
            raiseBudget blockSize drainFuel fuel sa.db
        (.drained :: r.1, r.2)

/-! Concrete store used by the counterexample and the witnesses. -/

/-- A message addressed to a blacklisted recipient. -/
def exMessage : Message :=
  ⟨1, "blocked@example.com", "from@example.com", "Subject", "Body", "", 0⟩

/-- The queued row of `exMessage`. -/
def exQueued : QueuedMessage := ⟨10, 1, PRIORITY_NORMAL, none, 0, 5⟩

/-- A store holding `exMessage`, its queued row, the recipient blacklisted,
and an empty delivery log. -/
def exDB : DB := ⟨[exMessage], [exQueued], ["blocked@example.com"], [], 100⟩

/-- C1: for a queued message whose recipient is blacklisted,
`send_queued_message` makes no transport send attempt, deletes the
`QueuedMessage`, and returns Skipped — but, contrary to the claim (and to
the function's own docstring "By default, a log is created as to the
action"; the `log=True` parameter is dead), it appends NO Skipped entry to
the delivery log: the resulting store keeps the empty log of `exDB`. -/
theorem C1_blacklisted_skip_creates_no_log_entry :
    send_queued_message [] (fun _ => SendOutcome.ok) exDB exQueued false none =
      some (Result.skipped, { exDB with queued := [] },
        [Ev.opened, Ev.closed]) ∧
    ({ exDB with queued := ([] : List QueuedMessage) }).logs = [] := by
  constructor
  · decide
  · rfl

/-- C4: a successful transport send deletes the queued row before
`send_message` returns, appends exactly one Sent log entry, returns Sent,
and leaves the `Message` table untouched. -/
theorem C4_success_deletes_queued_and_logs_sent (deferOnErrors : List Nat)
    (transport : Message → SendOutcome) (db : DB) (m : Message)
    (h : transport m = SendOutcome.ok) :
    (send_message deferOnErrors transport db m).1 = Result.sent
    ∧ (∀ q ∈ (send_message deferOnErrors transport db m).2.1.queued,
        q.messageId ≠ m.id)
    ∧ (send_message deferOnErrors transport db m).2.1.logs
        = db.logs ++ [⟨m.id, Result.sent, "Sent"⟩]
    ∧ (send_message deferOnErrors transport db m).2.1.messages
        = db.messages := by
  refine ⟨?_, fun q hq => ?_, ?_, ?_⟩
  · simp [send_message, h]
  · simp only [send_message, h, deleteQueuedByMessage, addLog,
      List.mem_filter, decide_eq_true_eq] at hq
    exact hq.2
  · simp [send_message, h, deleteQueuedByMessage, addLog]
  · simp [send_message, h, deleteQueuedByMessage, addLog]

/-- Witness for C4 at a concrete input. -/
theorem C4_success_witness :
    (fun _ : Message => SendOutcome.ok) exMessage = SendOutcome.ok
    ∧ ((send_message [] (fun _ => SendOutcome.ok) exDB exMessage).1
          = Result.sent
       ∧ (∀ q ∈ (send_message [] (fun _ => SendOutcome.ok) exDB
            exMessage).2.1.queued, q.messageId ≠ exMessage.id)
       ∧ (send_message [] (fun _ => SendOutcome.ok) exDB exMessage).2.1.logs
          = exDB.logs ++ [⟨exMessage.id, Result.sent, "Sent"⟩]
       ∧ (send_message [] (fun _ => SendOutcome.ok) exDB
            exMessage).2.1.messages = exDB.messages) :=
  ⟨rfl, C4_success_deletes_queued_and_logs_sent [] _ exDB exMessage rfl⟩

/-- C5: when the lock acquisition fails (`AlreadyLocked` or `LockTimeout`),
`send_all` returns immediately: the store is unchanged, no send attempt is
recorded, the counters are zero, and the outcome is a clean early return
(no exception). -/
theorem C5_lock_contention_returns_cleanly (deferOnErrors : List Nat)
    (transport : Message → SendOutcome) (lock : LockResult)
    (connOpenFails : Bool) (raiseBudget : Option Nat)
    (blockSize fuel : Nat) (db : DB) (h : lock ≠ LockResult.acquired) :
    send_all deferOnErrors transport lock connOpenFails raiseBudget blockSize
        fuel db
      = ⟨db, SAOut.earlyReturn, 0, 0, 0, [], false, false⟩ := by
  cases lock with
  | acquired => exact absurd rfl h
  | alreadyLocked => rfl
  | lockTimeout => rfl

/-- Witness for C5 at a concrete input. -/
theorem C5_lock_contention_witness :
    LockResult.alreadyLocked ≠ LockResult.acquired
    ∧ send_all [] (fun _ => SendOutcome.ok) LockResult.alreadyLocked false
        none 500 3 exDB
      = ⟨exDB, SAOut.earlyReturn, 0, 0, 0, [], false, false⟩ :=
  ⟨by decide, C5_lock_contention_returns_cleanly [] _ LockResult.alreadyLocked
    false none 500 3 exDB (by decide)⟩

/-- C8: every block read from the queue store is ordered by priority
ascending then enqueue timestamp ascending, and the priority constants make
ascending mean high first. -/
theorem C8_block_priority_then_age_order (db : DB) (exclude : List Nat)
    (blockSize : Nat) :
    (get_block db exclude blockSize).Pairwise queueOrder
    ∧ PRIORITY_HIGH < PRIORITY_NORMAL ∧ PRIORITY_NORMAL < PRIORITY_LOW := by
  refine ⟨?_, by decide, by decide⟩
  unfold get_block
  by_cases hbs : blockSize ≠ 0
  · rw [if_pos hbs]
    exact List.Pairwise.sublist (List.take_sublist _ _)
      (List.sorted_insertionSort queueOrder _)
  · rw [if_neg hbs]
    exact List.sorted_insertionSort queueOrder _

/-- C6: whenever `send_all` acquired the lock and its guarded section
reached any exit path (normal completion, connection-open failure, or an
exception raised while sending — i.e. anything but divergence of the drain
loop), the lock is released by the time the call returns or the exception
propagates. -/
theorem C6_lock_released_on_every_exit (deferOnErrors : List Nat)
    (transport : Message → SendOutcome) (lock : LockResult)
    (connOpenFails : Bool) (raiseBudget : Option Nat)
    (blockSize fuel : Nat) (db : DB)
    (hacq : (send_all deferOnErrors transport lock connOpenFails raiseBudget
        blockSize fuel db).lockAcquired = true)
    (hexit : (send_all deferOnErrors transport lock connOpenFails raiseBudget
        blockSize fuel db).out ≠ SAOut.diverged) :
    (send_all deferOnErrors transport lock connOpenFails raiseBudget
        blockSize fuel db).lockReleased = true := by
  cases lock with
  | alreadyLocked => simp [send_all] at hacq
  | lockTimeout => simp [send_all] at hacq
  | acquired =>
    cases connOpenFails with
    | true => simp [send_all]
    | false =>
      rcases hdl : drainLoop deferOnErrors transport db.blacklist blockSize
          fuel ⟨db, [], 0, 0, 0, [], raiseBudget⟩ with _ | e
      · simp [send_all, hdl] at hexit
      · cases e with
        | error db' => simp [send_all, hdl]
        | ok st => simp [send_all, hdl]

/-- Witness for C6 at a concrete input. -/
theorem C6_lock_released_witness :
    (send_all [] (fun _ => SendOutcome.ok) LockResult.acquired false none
        500 2 exDB).lockAcquired = true
    ∧ (send_all [] (fun _ => SendOutcome.ok) LockResult.acquired false none
        500 2 exDB).out ≠ SAOut.diverged
    ∧ (send_all [] (fun _ => SendOutcome.ok) LockResult.acquired false none
        500 2 exDB).lockReleased = true :=
  ⟨by decide, by decide,
    C6_lock_released_on_every_exit [] _ LockResult.acquired false none 500 2
      exDB (by decide) (by decide)⟩

/-- The connection open / close events of a per-message event trace. -/
def connEvents (evs : List Ev) : List Ev :=
  evs.filter (fun e => match e with
    | .opened => true
    | .closed => true
    | .sendAttempt _ => false)

/-- The transport trace of `send_message` is exactly one send attempt for
the message, whatever the transport outcome. -/
theorem send_message_trace (deferOnErrors : List Nat)
    (transport : Message → SendOutcome) (db : DB) (m : Message) :
    (send_message deferOnErrors transport db m).2.2 = [Ev.sendAttempt m.id] := by
  cases h : transport m <;> simp [send_message, h]

/-- C9: connection ownership of `send_queued_message` — with a supplied
connection the trace holds no open or close event (the caller's connection
is untouched); without one, the call's trace begins by opening a fresh
connection, ends by closing it, and holds exactly that one open / close
pair, whatever the outcome. -/
theorem C9_connection_ownership (deferOnErrors : List Nat)
    (transport : Message → SendOutcome) (db : DB) (qm : QueuedMessage)
    (argConnection : Bool) (blacklist : Option (List String))
    (r : Result) (db' : DB) (evs : List Ev)
    (h : send_queued_message deferOnErrors transport db qm argConnection
        blacklist = some (r, db', evs)) :
    (argConnection = true → connEvents evs = [])
    ∧ (argConnection = false →
        evs.head? = some Ev.opened ∧ evs.getLast? = some Ev.closed
        ∧ connEvents evs = [Ev.opened, Ev.closed]) := by
  unfold send_queued_message at h
  cases hf : db.messages.find? (fun m => m.id == qm.messageId) with
  | none => rw [hf] at h; exact absurd h (by simp)
  | some m =>
    rw [hf] at h
    simp only at h
    split at h <;>
    · injection h with h'
      injection h' with h1 h2
      injection h2 with h2 h3
      subst h3
      cases argConnection with
      | true =>
          refine ⟨fun _ => ?_, by simp⟩
          simp [connEvents, send_message_trace]
      | false =>
          refine ⟨by simp, fun _ => ?_⟩
          simp [connEvents, send_message_trace, List.getLast?]

/-- Witness for C9 at a concrete input (no connection supplied). -/
theorem C9_connection_ownership_witness :
    send_queued_message [] (fun _ => SendOutcome.ok) exDB exQueued false none
      = some (Result.skipped, { exDB with queued := [] },
          [Ev.opened, Ev.closed])
    ∧ ((false = true → connEvents [Ev.opened, Ev.closed] = [])
       ∧ (false = false →
           ([Ev.opened, Ev.closed] : List Ev).head? = some Ev.opened
           ∧ ([Ev.opened, Ev.closed] : List Ev).getLast? = some Ev.closed
           ∧ connEvents [Ev.opened, Ev.closed] = [Ev.opened, Ev.closed])) :=
  ⟨by decide,
    C9_connection_ownership [] (fun _ => SendOutcome.ok) exDB exQueued false
      none Result.skipped { exDB with queued := [] } [Ev.opened, Ev.closed]
      (by decide)⟩

/-- Every member of a fetched block is an eligible row: non-deferred and not
in the exclusion set. -/
theorem mem_get_block {db : DB} {ex : List Nat} {bs : Nat}
    {q : QueuedMessage} (h : q ∈ get_block db ex bs) :
    q ∈ eligibleRows db ex := by
  unfold get_block at h
  by_cases hbs : bs ≠ 0
  · rw [if_pos hbs] at h
    exact (List.perm_insertionSort queueOrder _).mem_iff.mp
      ((List.take_sublist _ _).subset h)
  · rw [if_neg hbs] at h
    exact (List.perm_insertionSort queueOrder _).mem_iff.mp h

/-- A row whose primary key is in the exclusion set never appears in a
fetched block. -/
theorem get_block_excludes {db : DB} {ex : List Nat} {bs : Nat}
    {q : QueuedMessage} (h : q ∈ get_block db ex bs) : ¬ q.id ∈ ex := by
  have h1 := mem_get_block h
  unfold eligibleRows at h1
  simp only [List.mem_filter, decide_eq_true_eq] at h1
  intro hmem
  exact h1.2 (List.contains_iff_exists_mem_beq.mpr
    ⟨q.id, hmem, by simp⟩)

/-- C2: a send attempt failing with a defer-worthy error kind leaves the
queued row present with its deferred-at timestamp set and every other field
(the retry count included) unchanged, appends exactly one Failed log entry,
returns Failed, and — in the drain pass — appends the row's primary key to
the exclusion set, so that no later block of the pass contains it. -/
theorem C2_transient_failure_defers_and_excludes (deferOnErrors : List Nat)
    (transport : Message → SendOutcome) (bl : List String) (st : PassState)
    (qm : QueuedMessage) (m : Message) (k : Nat)
    (hfind : st.db.messages.find? (fun mm => mm.id == qm.messageId) = some m)
    (hbl : bl.contains m.to_address = false)
    (hbudget : st.budget = none)
    (ht : transport m = SendOutcome.error k)
    (hk : deferOnErrors.contains k = true)
    (hmem : qm ∈ st.db.queued) :
    ∃ st', processEntry deferOnErrors transport bl st qm = Except.ok st'
      ∧ send_queued_message deferOnErrors transport st.db qm true (some bl)
          = some (Result.failed, st'.db, [Ev.sendAttempt m.id])
      ∧ { qm with deferred := some st.db.now } ∈ st'.db.queued
      ∧ st'.db.queued.length = st.db.queued.length
      ∧ st'.db.logs = st.db.logs ++ [⟨m.id, Result.failed, errorText k⟩]
      ∧ st'.exclude = st.exclude ++ [qm.id]
      ∧ (∀ db2 bs q2, q2 ∈ get_block db2 st'.exclude bs → q2.id ≠ qm.id) := by
  have hid : m.id = qm.messageId := by
    have := List.find?_some hfind
    simpa using this
  have hbl' : m.to_address ∉ bl := by
    simpa using hbl
  have hk' : k ∈ deferOnErrors := by
    simpa using hk
  have hsqm : send_queued_message deferOnErrors transport st.db qm true
      (some bl) = some (Result.failed,
        addLog (deferQueuedByMessage st.db m.id) m.id Result.failed
          (errorText k), [Ev.sendAttempt m.id]) := by
    simp [send_queued_message, hfind, hbl', send_message, ht, hk']
  have hpe : processEntry deferOnErrors transport bl st qm = Except.ok
      { st with
        db := addLog (deferQueuedByMessage st.db m.id) m.id Result.failed
          (errorText k)
        budget := none
        attempts := st.attempts ++ [m.id]
        deferredCount := st.deferredCount + 1
        exclude := st.exclude ++ [qm.id] } := by
    simp only [processEntry, hbudget, hsqm]
    rfl
  refine ⟨_, hpe, hsqm, ?_, ?_, ?_, rfl, ?_⟩
  · show _ ∈ (addLog (deferQueuedByMessage st.db m.id) m.id Result.failed
      (errorText k)).queued
    simp only [addLog, deferQueuedByMessage]
    have hfn : ({ qm with deferred := some st.db.now } : QueuedMessage)
        = (fun q => if q.messageId = m.id then
            { q with deferred := some st.db.now } else q) qm := by
      simp [hid]
    rw [hfn]
    exact List.mem_map_of_mem _ hmem
  · simp [addLog, deferQueuedByMessage]
  · simp [addLog, deferQueuedByMessage]
  · intro db2 bs q2 hq2
    have hnotin := get_block_excludes hq2
    intro heq
    exact hnotin (by simp [heq])

/-- C3: a send attempt failing with an error kind outside the defer-worthy
set leaves the queued table entirely unchanged (the row still present, its
deferred-at still null), appends exactly one Failed log entry, returns
Failed, and the drain pass goes on to process the remaining entries rather
than aborting. -/
theorem C3_permanent_failure_keeps_row_and_continues (deferOnErrors : List Nat)
    (transport : Message → SendOutcome) (bl : List String) (st : PassState)
    (qm : QueuedMessage) (m : Message) (k : Nat)
    (hfind : st.db.messages.find? (fun mm => mm.id == qm.messageId) = some m)
    (hbl : bl.contains m.to_address = false)
    (hbudget : st.budget = none)
    (ht : transport m = SendOutcome.error k)
    (hk : deferOnErrors.contains k = false)
    (hmem : qm ∈ st.db.queued) (hdef : qm.deferred = none) :
    ∃ st', processEntry deferOnErrors transport bl st qm = Except.ok st'
      ∧ send_queued_message deferOnErrors transport st.db qm true (some bl)
          = some (Result.failed, st'.db, [Ev.sendAttempt m.id])
      ∧ st'.db.queued = st.db.queued
      ∧ qm ∈ st'.db.queued ∧ qm.deferred = none
      ∧ st'.db.logs = st.db.logs ++ [⟨m.id, Result.failed, errorText k⟩]
      ∧ (∀ rest, processList deferOnErrors transport bl (qm :: rest) st
          = processList deferOnErrors transport bl rest st') := by
  have hbl' : m.to_address ∉ bl := by
    simpa using hbl
  have hk' : ¬ k ∈ deferOnErrors := by
    simpa using hk
  have hsqm : send_queued_message deferOnErrors transport st.db qm true
      (some bl) = some (Result.failed,
        addLog st.db m.id Result.failed (errorText k),
        [Ev.sendAttempt m.id]) := by
    simp [send_queued_message, hfind, hbl', send_message, ht, hk']
  have hpe : processEntry deferOnErrors transport bl st qm = Except.ok
      { st with
        db := addLog st.db m.id Result.failed (errorText k)
        budget := none
        attempts := st.attempts ++ [m.id]
        deferredCount := st.deferredCount + 1
        exclude := st.exclude ++ [qm.id] } := by
    simp only [processEntry, hbudget, hsqm]
    rfl
  refine ⟨_, hpe, hsqm, ?_, ?_, hdef, ?_, ?_⟩
  · simp [addLog]
  · simpa [addLog] using hmem
  · simp [addLog]
  · intro rest
    simp [processList, hpe]

/-- A message to a non-blacklisted recipient, for the failure witnesses. -/
def exMessage2 : Message :=
  ⟨2, "to@example.com", "from@example.com", "Subject", "Body", "", 0⟩

/-- The queued row of `exMessage2`. -/
def exQueued2 : QueuedMessage := ⟨20, 2, PRIORITY_NORMAL, none, 0, 6⟩

/-- A store holding `exMessage2` and its queued row, nothing blacklisted. -/
def exDB2 : DB := ⟨[exMessage2], [exQueued2], [], [], 100⟩

/-- The pass state at the start of a drain over `exDB2`. -/
def exState : PassState := ⟨exDB2, [], 0, 0, 0, [], none⟩

/-- Witness for C2 at a concrete input: error kind 7 is defer-worthy. -/
theorem C2_transient_failure_witness :
    exState.db.messages.find? (fun mm => mm.id == exQueued2.messageId)
        = some exMessage2
    ∧ ([] : List String).contains exMessage2.to_address = false
    ∧ exState.budget = none
    ∧ (fun _ : Message => SendOutcome.error 7) exMessage2
        = SendOutcome.error 7
    ∧ ([7] : List Nat).contains 7 = true
    ∧ exQueued2 ∈ exState.db.queued
    ∧ (∃ st', processEntry [7] (fun _ => SendOutcome.error 7) [] exState
          exQueued2 = Except.ok st'
        ∧ send_queued_message [7] (fun _ => SendOutcome.error 7) exState.db
            exQueued2 true (some [])
          = some (Result.failed, st'.db, [Ev.sendAttempt exMessage2.id])
        ∧ { exQueued2 with deferred := some exState.db.now } ∈ st'.db.queued
        ∧ st'.db.queued.length = exState.db.queued.length
        ∧ st'.db.logs = exState.db.logs
            ++ [⟨exMessage2.id, Result.failed, errorText 7⟩]
        ∧ st'.exclude = exState.exclude ++ [exQueued2.id]
        ∧ (∀ db2 bs q2, q2 ∈ get_block db2 st'.exclude bs
            → q2.id ≠ exQueued2.id)) :=
  ⟨by decide, by decide, rfl, rfl, by decide, by decide,
    C2_transient_failure_defers_and_excludes [7] (fun _ => SendOutcome.error 7)
      [] exState exQueued2 exMessage2 7 (by decide) (by decide) rfl rfl
      (by decide) (by decide)⟩

/-- Witness for C3 at a concrete input: error kind 7 is not defer-worthy. -/
theorem C3_permanent_failure_witness :
    exState.db.messages.find? (fun mm => mm.id == exQueued2.messageId)
        = some exMessage2
    ∧ ([] : List String).contains exMessage2.to_address = false
    ∧ exState.budget = none
    ∧ (fun _ : Message => SendOutcome.error 7) exMessage2
        = SendOutcome.error 7
    ∧ ([] : List Nat).contains 7 = false
    ∧ exQueued2 ∈ exState.db.queued
    ∧ exQueued2.deferred = none
    ∧ (∃ st', processEntry [] (fun _ => SendOutcome.error 7) [] exState
          exQueued2 = Except.ok st'
        ∧ send_queued_message [] (fun _ => SendOutcome.error 7) exState.db
            exQueued2 true (some [])
          = some (Result.failed, st'.db, [Ev.sendAttempt exMessage2.id])
        ∧ st'.db.queued = exState.db.queued
        ∧ exQueued2 ∈ st'.db.queued ∧ exQueued2.deferred = none
        ∧ st'.db.logs = exState.db.logs
            ++ [⟨exMessage2.id, Result.failed, errorText 7⟩]
        ∧ (∀ rest, processList [] (fun _ => SendOutcome.error 7) []
              (exQueued2 :: rest) exState
            = processList [] (fun _ => SendOutcome.error 7) [] rest st')) :=
  ⟨by decide, by decide, rfl, rfl, by decide, by decide, rfl,
    C3_permanent_failure_keeps_row_and_continues []
      (fun _ => SendOutcome.error 7) [] exState exQueued2 exMessage2 7
      (by decide) (by decide) rfl rfl (by decide) (by decide) rfl⟩

/-- A store whose only queued rows are all deferred. -/
theorem nonDeferred_eq_nil {db : DB}
    (h : ∀ q ∈ db.queued, q.deferred ≠ none) : nonDeferred db = [] :=
  List.filter_eq_nil_iff.mpr (fun q hq => by simpa using h q hq)

/-- When every queued row is deferred, every fetched block is empty. -/
theorem get_block_of_all_deferred {db : DB} {ex : List Nat} {bs : Nat}
    (h : ∀ q ∈ db.queued, q.deferred ≠ none) : get_block db ex bs = [] := by
  have h1 : eligibleRows db ex = [] := by
    unfold eligibleRows
    rw [nonDeferred_eq_nil h]
    rfl
  unfold get_block
  rw [h1]
  split <;> simp [List.insertionSort]

/-- A `send_all` pass over a store whose queued rows are all deferred leaves
the store unchanged and neither raises nor diverges (for any lock outcome,
with the connection opening normally and no injected exception). -/
theorem send_all_all_deferred (deferOnErrors : List Nat)
    (transport : Message → SendOutcome) (lock : LockResult)
    (raiseBudget : Option Nat) (blockSize fuel : Nat) (db : DB)
    (h : ∀ q ∈ db.queued, q.deferred ≠ none) (hf : fuel ≠ 0) :
    (send_all deferOnErrors transport lock false raiseBudget blockSize fuel
        db).db = db
    ∧ (send_all deferOnErrors transport lock false raiseBudget blockSize fuel
        db).out ≠ SAOut.raised
    ∧ (send_all deferOnErrors transport lock false raiseBudget blockSize fuel
        db).out ≠ SAOut.diverged := by
  cases lock with
  | alreadyLocked => exact ⟨rfl, by simp [send_all], by simp [send_all]⟩
  | lockTimeout => exact ⟨rfl, by simp [send_all], by simp [send_all]⟩
  | acquired =>
    cases fuel with
    | zero => exact absurd rfl hf
    | succ n =>
      have hblock := @get_block_of_all_deferred db [] blockSize h
      refine ⟨?_, ?_, ?_⟩ <;>
        simp [send_all, drainLoop, hblock]

/-- The scheduler loop over an empty queue sleeps at every check and touches
nothing. -/
theorem send_loop_empty_queue (deferOnErrors : List Nat)
    (transport : Message → SendOutcome) (lock : LockResult)
    (connOpenFails : Bool) (raiseBudget : Option Nat)
    (blockSize drainFuel : Nat) :
    ∀ fuel (db : DB), db.queued = [] →
    send_loop deferOnErrors transport lock connOpenFails raiseBudget blockSize
        drainFuel fuel db
      = (List.replicate fuel LoopAct.slept, db, false) := by
  intro fuel
  induction fuel with
  | zero => intro db _; rfl
  | succ n ih =>
    intro db h
    simp [send_loop, h, ih db h, List.replicate_succ]

/-- The scheduler loop over a queue of only deferred rows drains at every
check — it never sleeps — and the store never changes. -/
theorem send_loop_all_deferred (deferOnErrors : List Nat)
    (transport : Message → SendOutcome) (lock : LockResult)
    (raiseBudget : Option Nat) (blockSize drainFuel : Nat)
    (hdf : drainFuel ≠ 0) :
    ∀ fuel (db : DB), db.queued ≠ [] → (∀ q ∈ db.queued, q.deferred ≠ none) →
    send_loop deferOnErrors transport lock false raiseBudget blockSize
        drainFuel fuel db
      = (List.replicate fuel LoopAct.drained, db, false) := by
  intro fuel
  induction fuel with
  | zero => intro db _ _; rfl
  | succ n ih =>
    intro db hne hdef
    have hne' : db.queued.isEmpty = false := by
      simpa [List.isEmpty_iff] using hne
    obtain ⟨h1, h2, h3⟩ := send_all_all_deferred deferOnErrors transport lock
      raiseBudget blockSize drainFuel db hdef hdf
    have hcond : ¬((send_all deferOnErrors transport lock false raiseBudget
        blockSize drainFuel db).out = SAOut.raised
      ∨ (send_all deferOnErrors transport lock false raiseBudget blockSize
        drainFuel db).out = SAOut.diverged) := not_or.mpr ⟨h2, h3⟩
    simp only [send_loop, hne', Bool.false_eq_true, if_false, if_neg hcond,
      h1, ih db hne hdef, List.replicate_succ]

/-- C10: the scheduler loop counts deferred rows as pending work — it sleeps
only when the `QueuedMessage` table is entirely empty, and over a queue
containing only deferred rows it calls `send_all` at every iteration,
never sleeping in between. -/
theorem C10_idle_check_counts_deferred (deferOnErrors : List Nat)
    (transport : Message → SendOutcome) (lock : LockResult)
    (raiseBudget : Option Nat) (blockSize drainFuel fuel : Nat) (db : DB)
    (hne : db.queued ≠ [])
    (hdef : ∀ q ∈ db.queued, q.deferred ≠ none)
    (hdf : drainFuel ≠ 0) :
    send_loop deferOnErrors transport lock false raiseBudget blockSize
        drainFuel fuel db
      = (List.replicate fuel LoopAct.drained, db, false)
    ∧ (∀ db2 : DB, db2.queued = [] →
        send_loop deferOnErrors transport lock false raiseBudget blockSize
            drainFuel fuel db2
          = (List.replicate fuel LoopAct.slept, db2, false)) :=
  ⟨send_loop_all_deferred deferOnErrors transport lock raiseBudget blockSize
      drainFuel hdf fuel db hne hdef,
   fun db2 h2 => send_loop_empty_queue deferOnErrors transport lock false
      raiseBudget blockSize drainFuel fuel db2 h2⟩

/-- A store whose single queued row is deferred. -/
def exDeferredDB : DB :=
  ⟨[exMessage2], [⟨20, 2, PRIORITY_NORMAL, some 50, 0, 6⟩], [], [], 100⟩

/-- Witness for C10 at a concrete input. -/
theorem C10_idle_check_witness :
    exDeferredDB.queued ≠ []
    ∧ (∀ q ∈ exDeferredDB.queued, q.deferred ≠ none)
    ∧ (1 : Nat) ≠ 0
    ∧ send_loop [] (fun _ => SendOutcome.ok) LockResult.acquired false none
        500 1 2 exDeferredDB
      = (List.replicate 2 LoopAct.drained, exDeferredDB, false) :=
  ⟨by decide, by decide, by decide,
    (C10_idle_check_counts_deferred [] (fun _ => SendOutcome.ok)
      LockResult.acquired none 500 1 2 exDeferredDB (by decide) (by decide)
      (by decide)).1⟩

/-- The primary keys of the rows currently eligible for iteration: the
non-deferred rows outside the exclusion set. -/
def EPks (db : DB) (ex : List Nat) : List Nat :=
  (eligibleRows db ex).map (·.id)

/-- A fetched block is empty exactly when no row is eligible. -/
theorem get_block_eq_nil_iff {db : DB} {ex : List Nat} {bs : Nat} :
    get_block db ex bs = [] ↔ eligibleRows db ex = [] := by
  unfold get_block
  have hp := List.perm_insertionSort queueOrder (eligibleRows db ex)
  constructor
  · intro h
    by_cases hbs : bs ≠ 0
    · rw [if_pos hbs] at h
      rcases List.take_eq_nil_iff.mp h with h0 | hs
      · exact absurd h0 hbs
      · exact ((hs ▸ hp : ([] : List QueuedMessage).Perm _).symm).eq_nil
    · rw [if_neg hbs] at h
      exact ((h ▸ hp : ([] : List QueuedMessage).Perm _).symm).eq_nil
  · intro h
    rw [h]
    split <;> simp [List.insertionSort]

/-- Consuming every row of a block in order removes exactly the block's
primary keys from the eligible set.  The consumer hypothesis says that
acting on a yielded row (deleting or deferring it) removes exactly that
row's key from eligibility. -/
theorem fold_consume_perm (consume : DB → QueuedMessage → DB) (ex : List Nat)
    (H1 : ∀ d q, q.id ∈ EPks d ex → (EPks d ex).Nodup →
        (EPks (consume d q) ex).Perm ((EPks d ex).erase q.id)) :
    ∀ (block : List QueuedMessage) (db : DB) (rest : List Nat),
      (EPks db ex).Perm (block.map (·.id) ++ rest) → (EPks db ex).Nodup →
      (EPks (block.foldl consume db) ex).Perm rest
      ∧ (EPks (block.foldl consume db) ex).Nodup := by
  intro block
  induction block with
  | nil =>
    intro db rest hp hnd
    exact ⟨by simpa using hp, hnd⟩
  | cons q bt ih =>
    intro db rest hp hnd
    have hp' : (EPks db ex).Perm (q.id :: (bt.map (·.id) ++ rest)) := by
      simpa using hp
    have hqmem : q.id ∈ EPks db ex := hp'.mem_iff.mpr (by simp)
    have h1 := H1 db q hqmem hnd
    have h2 : ((EPks db ex).erase q.id).Perm (bt.map (·.id) ++ rest) := by
      have he := hp'.erase q.id
      rwa [List.erase_cons_head] at he
    have hperm' : (EPks (consume db q) ex).Perm (bt.map (·.id) ++ rest) :=
      h1.trans h2
    have hnd' : (EPks (consume db q) ex).Nodup :=
      h1.nodup_iff.mpr (hnd.erase _)
    simpa using ih (consume db q) rest hperm' hnd'

/-- C7: over any initial set of eligible entries, when the consumer deletes
or defers every yielded entry (removing exactly that entry from
eligibility) and inserts nothing, the block-wise iterator terminates — it
stops at the first freshly fetched empty block, within fuel one more than
the number of eligible entries — and its yield trace is a duplicate-free
permutation of the eligible primary keys, i.e. each entry is yielded
exactly once; moreover a block size of zero fetches every remaining
eligible entry in a single block. -/
theorem C7_iterator_terminates_yields_each_once
    (consume : DB → QueuedMessage → DB) (bs : Nat) (ex : List Nat)
    (fuel : Nat) (db : DB)
    (H1 : ∀ d q, q.id ∈ EPks d ex → (EPks d ex).Nodup →
        (EPks (consume d q) ex).Perm ((EPks d ex).erase q.id))
    (hnd : (EPks db ex).Nodup)
    (hfuel : (EPks db ex).length < fuel) :
    (∃ db' trace, message_queue_run consume bs ex fuel db = some (db', trace)
       ∧ trace.Perm (EPks db ex) ∧ trace.Nodup)
    ∧ (get_block db ex 0).Perm (eligibleRows db ex) := by
  constructor
  · induction fuel generalizing db with
    | zero => exact absurd hfuel (Nat.not_lt_zero _)
    | succ n ih =>
      by_cases hb : get_block db ex bs = []
      · have he : eligibleRows db ex = [] := get_block_eq_nil_iff.mp hb
        refine ⟨db, [], ?_, ?_, List.nodup_nil⟩
        · simp [message_queue_run, hb]
        · simp [EPks, he]
      · have hsplit : ∃ rest, (eligibleRows db ex).insertionSort queueOrder
            = get_block db ex bs ++ rest := by
          unfold get_block
          by_cases hbs : bs ≠ 0
          · rw [if_pos hbs]
            exact ⟨_, (List.take_append_drop bs _).symm⟩
          · rw [if_neg hbs]
            exact ⟨[], by simp⟩
        obtain ⟨rest, hrest⟩ := hsplit
        have h1 : (eligibleRows db ex).Perm (get_block db ex bs ++ rest) := by
          rw [← hrest]
          exact (List.perm_insertionSort queueOrder _).symm
        have hpermPks : (EPks db ex).Perm
            ((get_block db ex bs).map (·.id) ++ rest.map (·.id)) := by
          simpa [EPks, List.map_append] using h1.map (·.id)
        have hfold := fold_consume_perm consume ex H1 (get_block db ex bs) db
          (rest.map (·.id)) hpermPks hnd
        have hlen : (EPks ((get_block db ex bs).foldl consume db) ex).length
            < n := by
          have e1 : (EPks db ex).length
              = (get_block db ex bs).length + rest.length := by
            simpa [List.length_append] using hpermPks.length_eq
          have e2 : (EPks ((get_block db ex bs).foldl consume db) ex).length
              = rest.length := by simpa using hfold.1.length_eq
          have e3 : 0 < (get_block db ex bs).length := List.length_pos.mpr hb
          omega
        obtain ⟨db', trace, hrun, htr, htnd⟩ :=
          ih ((get_block db ex bs).foldl consume db) hfold.2 hlen
        have hie : (get_block db ex bs).isEmpty = false := by
          simpa [List.isEmpty_iff] using hb
        have hwhole : ((get_block db ex bs).map (·.id) ++ trace).Perm
            (EPks db ex) := by
          have hmid : trace.Perm (rest.map (·.id)) := htr.trans hfold.1
          exact (List.Perm.append_left _ hmid).trans hpermPks.symm
        refine ⟨db', (get_block db ex bs).map (·.id) ++ trace, ?_, hwhole, ?_⟩
        · simp only [message_queue_run, hie, Bool.false_eq_true, if_false,
            hrun]
        · exact hwhole.nodup_iff.mpr hnd
  · unfold get_block
    rw [if_neg (by simp)]
    exact List.perm_insertionSort queueOrder _

/-- Mapping rows to primary keys commutes with filtering on the key. -/
theorem map_id_filter_ne (l : List QueuedMessage) (pk : Nat) :
    (l.filter (fun q => q.id ≠ pk)).map (·.id)
      = (l.map (·.id)).filter (fun i => i ≠ pk) := by
  induction l with
  | nil => rfl
  | cons q t ih =>
    simp only [ne_eq, decide_not] at ih ⊢
    by_cases h : q.id = pk <;> simp [h, ih]

/-- Deleting a row by primary key filters exactly that key out of the
eligible rows. -/
theorem eligibleRows_delete (db : DB) (pk : Nat) (ex : List Nat) :
    eligibleRows (deleteQueuedByPk db pk) ex
      = (eligibleRows db ex).filter (fun q => q.id ≠ pk) := by
  simp only [eligibleRows, nonDeferred, deleteQueuedByPk, List.filter_filter]
  exact List.filter_congr (fun x _ => by
    simp [Bool.and_comm, Bool.and_assoc, Bool.and_left_comm])

/-- The deletion consumer satisfies the iterator contract: acting on a
yielded row removes exactly that row's key from eligibility. -/
theorem delete_consume_removes (ex : List Nat) :
    ∀ d (q : QueuedMessage), q.id ∈ EPks d ex → (EPks d ex).Nodup →
      (EPks (deleteQueuedByPk d q.id) ex).Perm ((EPks d ex).erase q.id) := by
  intro d q _ hnd
  have h1 : EPks (deleteQueuedByPk d q.id) ex
      = (EPks d ex).filter (fun i => i ≠ q.id) := by
    unfold EPks
    rw [eligibleRows_delete, map_id_filter_ne]
  have h2 : (EPks d ex).erase q.id
      = (EPks d ex).filter (fun i => i ≠ q.id) := by
    rw [List.Nodup.erase_eq_filter hnd]
    exact List.filter_congr (fun x _ => by
      by_cases h : x = q.id <;> simp [h, bne_iff_ne])
  rw [h1, h2]

/-- A store with two eligible queued rows (and block size one, so the
iterator must fetch several blocks). -/
def exDB3 : DB :=
  ⟨[], [⟨1, 1, PRIORITY_HIGH, none, 0, 1⟩,
        ⟨2, 2, PRIORITY_NORMAL, none, 0, 2⟩], [], [], 0⟩

/-- Witness for C7 at a concrete input: a deleting consumer, block size 1,
two eligible entries, fuel 3. -/
theorem C7_iterator_witness :
    (EPks exDB3 []).Nodup ∧ (EPks exDB3 []).length < 3
    ∧ (∃ db' trace, message_queue_run
          (fun d q => deleteQueuedByPk d q.id) 1 [] 3 exDB3
        = some (db', trace)
        ∧ trace.Perm (EPks exDB3 []) ∧ trace.Nodup)
    ∧ (get_block exDB3 [] 0).Perm (eligibleRows exDB3 []) :=
  ⟨by decide, by decide,
    (C7_iterator_terminates_yields_each_once
      (fun d q => deleteQueuedByPk d q.id) 1 [] 3 exDB3
      (delete_consume_removes []) (by decide) (by decide)).1,
    (C7_iterator_terminates_yields_each_once
      (fun d q => deleteQueuedByPk d q.id) 1 [] 3 exDB3
      (delete_consume_removes []) (by decide) (by decide)).2⟩

end DjangoMailer
